import Mathlib

/-!
Verification of the Live Preview Process Orchestrator of the Wave Web IDE
(`web-ide/web_ide.py`).

The development is a shallow embedding of the Python module:

* the Entry-Point Detector (`'@app(' in code`, the two `re.search` calls in
  `render_code`, and the resulting route path) becomes pure functions on
  `List Char` / `String`;
* the session state touched by the orchestrator (`q.user.is_app`,
  `q.user.active_path`, `q.user.wave_process`, `q.user.display_logs_future`,
  `q.client.open_file`, the page cards and the workspace files) becomes the
  record `IDEState`, together with an explicit `World` of spawned OS
  processes and streamer futures;
* `start`, `stop_previous`, `show_empty_preview`, `render_code`,
  `on_shutdown` become state transformers that additionally emit a trace of
  `Ev` events (spawn / terminate / reap / future-cancel / page updates), so
  that temporal properties can be stated over every intermediate point of a
  session;
* `display_logs` becomes a function from the stream of `readline` outcomes
  to the list of published log buffers.

Machine-level concerns (actual signal delivery, pipe buffering, the
`pythonify_js_code` helper of the external `file_utils` collaborator) are
outside the embedding; the text saved for a file is taken as given.
-/

/-! ### Entry-Point Detector

`render_code` (web_ide.py lines 156-169) classifies the saved text of the
main entry file with

* `q.user.is_app = '@app(' in code`  — substring test;
* `app_match = re.search('\n@app\(.*(\x27|")(.*)(\x27|")', code)` and, when
  that fails, `script_match = re.search('site\[(\x27|")(.*)(\x27|")\]', code)`;
  the extracted path is `group(2)` of whichever matched.

The two regular expressions are compiled by hand into list scans, keeping
Python `re.search` semantics: the match position is the leftmost position at
which the whole pattern matches, `.` does not match a newline, and each `.*`
is greedy (backtracks from the longest candidate).  For the first pattern
this means: the match sits at the first `"\n@app("` whose remaining line
holds at least two quote characters, and `group(2)` is the text between the
second-to-last and the last quote of that line.  For the second pattern:
the match sits at the first `"site["` followed by a quote whose remaining
line later holds a quote immediately followed by `]`; greediness picks the
last such closing pair, and `group(2)` is the text between the opening
quote and that closing quote.
-/

/-- Quote characters accepted by both patterns: `'` (codepoint 39) or `"`. -/
def isQuote (c : Char) : Bool := c == Char.ofNat 39 || c == '"'

/-- Split a character list at its first quote character: returns the part
strictly before the quote and the part strictly after it. -/
def splitAtQuote : List Char → Option (List Char × List Char)
  | [] => none
  | c :: rest =>
    if isQuote c then some ([], rest)
    else
      match splitAtQuote rest with
      | some (pre, post) => some (c :: pre, post)
      | none => none

/-- Group 2 of `\n@app\(.*(\x27|")(.*)(\x27|")` for the line following
`@app(`: the text between the second-to-last and the last quote of the
line, when the line has at least two quotes. -/
def appGroup (line : List Char) : Option (List Char) :=
  match splitAtQuote line.reverse with
  | none => none
  | some (_, afterLast) =>
    match splitAtQuote afterLast with
    | none => none
    | some (mid, _) => some mid.reverse

/-- Does `pat` occur as a prefix of `l`? -/
def startsWithChars : List Char → List Char → Bool
  | [], _ => true
  | _ :: _, [] => false
  | p :: ps, c :: cs => p == c && startsWithChars ps cs

/-- Does `pat` occur as a substring of `l`? -/
def containsChars (pat : List Char) : List Char → Bool
  | [] => startsWithChars pat []
  | c :: rest => startsWithChars pat (c :: rest) || containsChars pat rest

/-- Scan for the leftmost `"\n@app("` whose line admits the two-quote
match; on success return the extracted group 2. -/
def appSearchAux : List Char → Option (List Char)
  | [] => none
  | c :: rest =>
    if c == '\n' && startsWithChars ['@', 'a', 'p', 'p', '('] rest then
      match appGroup ((rest.drop 5).takeWhile (fun d => d != '\n')) with
      | some g => some g
      | none => appSearchAux rest
    else appSearchAux rest

/-- Accumulating scan of the text following the opening quote of a
`site[` subscript: record the group preceding every quote that is directly
followed by `]`, keeping the last (greedy) one. -/
def siteGroupGo : List Char → List Char → Option (List Char) → Option (List Char)
  | [], _, best => best
  | c :: rest, acc, best =>
    let best2 :=
      match rest with
      | ']' :: _ => if isQuote c then some acc else best
      | _ => best
    siteGroupGo rest (acc ++ [c]) best2

/-- Group 2 of `site\[(\x27|")(.*)(\x27|")\]` for the text following the
opening quote, restricted to the same line. -/
def siteGroup (line : List Char) : Option (List Char) :=
  siteGroupGo line [] none

/-- Scan for the leftmost `site[` followed by a quote whose line admits a
closing quote-bracket pair; on success return the extracted group 2. -/
def siteSearchAux : List Char → Option (List Char)
  | [] => none
  | c :: rest =>
    if startsWithChars ['s', 'i', 't', 'e', '['] (c :: rest) then
      match rest.drop 4 with
      | q :: tl =>
        if isQuote q then
          match siteGroup (tl.takeWhile (fun d => d != '\n')) with
          | some g => some g
          | none => siteSearchAux rest
        else siteSearchAux rest
      | [] => siteSearchAux rest
    else siteSearchAux rest

/-- The service-registration marker test `'@app(' in code` (line 158). -/
def hasAppMarker (code : String) : Bool :=
  containsChars ['@', 'a', 'p', 'p', '('] code.data

/-- The registration-call search (line 159), returning `group(2)`. -/
def appSearch (code : String) : Option String :=
  (appSearchAux code.data).map (fun l => String.mk l)

/-- The indexed-publish search (line 163), returning `group(2)`. -/
def siteSearch (code : String) : Option String :=
  (siteSearchAux code.data).map (fun l => String.mk l)

/-- The `path` value computed by `render_code` lines 156-165: group 2 of the
registration-call match when it exists, otherwise group 2 of the
indexed-publish match when it exists, otherwise the initial `''`.  Note the
faithful asymmetry: when the registration-call pattern matches with an
empty group, the indexed-publish pattern is never consulted. -/
def extractPath (code : String) : String :=
  match appSearch code with
  | some p => p
  | none =>
    match siteSearch code with
    | some p => p
    | none => ""

/-! ### Log Streamer

`display_logs` (web_ide.py lines 133-146) polls `p.stdout.readline()` on a
non-blocking handle.  Each poll has one of three outcomes, modelled by
`ReadEv`: a chunk of bytes that decodes to a string, a chunk of bytes on
which `line.decode('utf8')` raises `UnicodeDecodeError`, or no data (the
task sleeps 0.5 s and retries).  The function below runs the loop over a
finite window of poll outcomes and returns, in order, every value taken by
the local `code = ''.join(lines)` buffer at a `q.page.save()` publication
point, together with a flag recording whether the loop was torn down by an
uncaught decode exception (there is no `try` in the source). -/

inductive ReadEv
  | line (s : String)
  | badLine
  | noData
deriving DecidableEq

/-- Run `display_logs` over a window of poll outcomes, starting from an
accumulated `lines` list (the Python local starts at `[]`).  Returns the
published buffer contents and whether the task died on a decode error. -/
def displayLogsRun : List String → List ReadEv → List String × Bool
  | _, [] => ([], false)
  | lines, ReadEv.line s :: evs =>
    let lines2 := lines ++ [s]
    let r := displayLogsRun lines2 evs
    (String.join lines2 :: r.1, r.2)
  | lines, ReadEv.noData :: evs => displayLogsRun lines evs
  | _, ReadEv.badLine :: _ => ([], true)

/-- Published buffer contents only. -/
def displayLogsBufs (lines : List String) (evs : List ReadEv) : List String :=
  (displayLogsRun lines evs).1

/-- The markdown card content written for a buffer (line 142): the buffer
fenced by a constant prologue and epilogue. -/
def renderLogsCard (buf : String) : String := "```\n" ++ buf ++ "\n```"

/-- The successfully decoded lines of a poll window, in order. -/
def linesOf (evs : List ReadEv) : List String :=
  evs.filterMap (fun e => match e with | ReadEv.line s => some s | _ => none)

/-- String `b` extends string `a` on the right. -/
def appendExt (a b : String) : Prop := ∃ t, b = a ++ t

/-! ### Process world

Spawned child processes and streamer futures live in a `World`.  A process
is `running`, `exited c` (dead with exit status `c` but not yet reaped by
`wait`), or `reaped c`.  `Popen.returncode` is `None` until `wait` is
called, even when the child has already died; the cached value lives in the
handle (`ProcHandle.returncode`), the true child status in the world.
`terminate()` is modelled as taking effect by the time the immediately
following blocking `wait()` returns; the pair is observed atomically by the
single-threaded scheduler, and `-15` (SIGTERM) is the resulting status. -/

inductive ProcStatus
  | running
  | exited (c : Int)
  | reaped (c : Int)
deriving DecidableEq

def ProcStatus.isRunning : ProcStatus → Bool
  | .running => true
  | _ => false

def ProcStatus.isReaped : ProcStatus → Bool
  | .reaped _ => true
  | _ => false

/-- A spawned child: the launch command recorded at `Popen` time plus the
current status. -/
structure ProcEntry where
  cmdFile : String
  asApp : Bool
  status : ProcStatus
deriving DecidableEq

/-- The OS-level world: children by pid (list index), streamer futures by
id (`true` = cancellation requested), and whether `Popen` succeeds (the
interpreter/executable is present). -/
structure World where
  procs : List ProcEntry
  futs : List Bool
  spawnOk : Bool
deriving DecidableEq

/-- Status of pid `p`; out-of-range pids read as long reaped. -/
def World.statusOf (w : World) (p : Nat) : ProcStatus :=
  match w.procs.get? p with
  | some e => e.status
  | none => ProcStatus.reaped 0

/-- Overwrite the status of pid `p` (no-op when out of range). -/
def World.setStatus (w : World) (p : Nat) (st : ProcStatus) : World :=
  match w.procs.get? p with
  | some e => { w with procs := w.procs.set p { e with status := st } }
  | none => w

/-- `Popen.terminate()`: SIGTERM a running child. -/
def World.terminate (w : World) (p : Nat) : World :=
  match w.statusOf p with
  | ProcStatus.running => w.setStatus p (ProcStatus.exited (-15))
  | _ => w

/-- `Popen.wait()`: reap the child, returning its exit status. -/
def World.wait (w : World) (p : Nat) : World × Int :=
  match w.statusOf p with
  | ProcStatus.running => (w.setStatus p (ProcStatus.reaped (-15)), -15)
  | ProcStatus.exited c => (w.setStatus p (ProcStatus.reaped c), c)
  | ProcStatus.reaped c => (w, c)

/-- `Future.cancel()`: mark the future cancelled (no-op out of range). -/
def World.cancelFut (w : World) (i : Nat) : World :=
  { w with futs := w.futs.set i true }

/-- Cancellation flag of future `i`; out-of-range ids read as cancelled. -/
def World.futCancelled (w : World) (i : Nat) : Bool :=
  match w.futs.get? i with
  | some b => b
  | none => true

/-- The `Popen` handle stored in `q.user.wave_process`: pid plus the cached
`returncode` attribute. -/
structure ProcHandle where
  pid : Nat
  returncode : Option Int
deriving DecidableEq

/-- The preview pane: `tall_info_card` empty state or a `frame_card` at a
route path. -/
inductive PreviewCard
  | empty
  | frame (path : String)
deriving DecidableEq

/-! ### Session state and events -/

/-- Observable events emitted by the orchestrator, in program order. -/
inductive Ev
  | spawn (pid : Nat)
  | spawnFail
  | term (pid : Nat)
  | reap (pid : Nat)
  | exit (pid : Nat)
  | futStart (fid : Nat)
  | futCancel (fid : Nat)
  | pageDrop (path : String)
  | showEmpty
  | showFrame (path : String)
  | teardown
deriving DecidableEq

/-- The session state read and written by the orchestrator: the `q.user`
and `q.client` fields, the page cards it owns, the workspace, and the
process world. -/
structure IDEState where
  isApp : Bool
  activePath : String
  waveProcess : Option ProcHandle
  displayLogsFut : Option Nat
  openFile : String
  files : List (String × String)
  pages : List String
  preview : PreviewCard
  previewDisabled : Bool
  logsContent : String
  workspace : Bool
  world : World
deriving DecidableEq

/-- `os.path.join(project_dir, 'app.py')` — the designated entry file. -/
def main_app_file : String := "project/app.py"

/-- Write (create or overwrite) a workspace file. -/
def writeFile (files : List (String × String)) (name text : String) :
    List (String × String) :=
  if files.any (fun p => p.1 == name) then
    files.map (fun p => if p.1 == name then (name, text) else p)
  else files ++ [(name, text)]

/-- Read a workspace file (missing files read as empty, like
`read_file(...) or ''`). -/
def readFile (files : List (String × String)) (name : String) : String :=
  match files.find? (fun p => p.1 == name) with
  | some p => p.2
  | none => ""

/-! ### Process Supervisor: `start` and `stop_previous` -/

/-- `start(filename, is_app)` (lines 24-42): one `Popen` call.  On success
the new child is appended to the world (its pid is the next free index) and
a fresh handle with `returncode = None` is returned; when spawning is
impossible the OS error propagates (`none` result) and no child exists. -/
def start (w : World) (filename : String) (launchAsApp : Bool) :
    Option ProcHandle × World × List Ev :=
  if w.spawnOk then
    let pid := w.procs.length
    (some { pid := pid, returncode := none },
     { w with procs := w.procs ++ [{ cmdFile := filename, asApp := launchAsApp,
                                     status := ProcStatus.running }] },
     [Ev.spawn pid])
  else (none, w, [Ev.spawnFail])

/-- Lines 45-49 of `stop_previous`: drop the published page at the active
path when the last classification was a script. -/
def dropPage (s : IDEState) : IDEState × List Ev :=
  if s.isApp = false ∧ s.activePath ≠ "" then
    ({ s with pages := s.pages.filter (fun p => p ≠ s.activePath) },
     [Ev.pageDrop s.activePath])
  else (s, [])

/-- Lines 50-53 of `stop_previous`: when a handle exists and its cached
`returncode` is still `None`, terminate the child and block in `wait` until
it is reaped; the handle caches the exit status. -/
def stopProc (s : IDEState) : IDEState × List Ev :=
  match s.waveProcess with
  | some h =>
    if h.returncode = none then
      let w1 := s.world.terminate h.pid
      let wr := w1.wait h.pid
      ({ s with world := wr.1,
                waveProcess := some { h with returncode := some wr.2 } },
       [Ev.term h.pid, Ev.reap h.pid])
    else (s, [])
  | none => (s, [])

/-- Lines 54-55 of `stop_previous`: request cancellation of the log
streamer future when one exists. -/
def cancelStreamer (s : IDEState) : IDEState × List Ev :=
  match s.displayLogsFut with
  | some fid => ({ s with world := s.world.cancelFut fid }, [Ev.futCancel fid])
  | none => (s, [])

/-- `stop_previous(q)` (lines 44-55): the three phases in program order. -/
def stop_previous (s : IDEState) : IDEState × List Ev :=
  let a := dropPage s
  let b := stopProc a.1
  let c := cancelStreamer b.1
  (c.1, a.2 ++ b.2 ++ c.2)

/-- `show_empty_preview(q)` (lines 121-131): replace the preview pane with
the empty-state info card and disable the open-preview button. -/
def show_empty_preview (s : IDEState) : IDEState :=
  { s with preview := PreviewCard.empty, previewDisabled := true }

/-! ### Preview Reconciler: `render_code` -/

/-- Lines 171-183 of `render_code`: stop the previous process, spawn the
new one, spawn a fresh `display_logs` future bound to it, and show the
frame card at `path`.  When `Popen` raises, the exception propagates (third
component `true`): the handle, future and page fields keep their previous
values. -/
def renderLaunch (s : IDEState) (path : String) : IDEState × List Ev × Bool :=
  let sp := stop_previous s
  let s1 := sp.1
  let mainFile := if s1.isApp then "project.app.py" else "project/app.py"
  match start s1.world mainFile s1.isApp with
  | (some h, w, e2) =>
    let fid := w.futs.length
    let s2 := { s1 with
      waveProcess := some h,
      world := { w with futs := w.futs ++ [false] },
      displayLogsFut := some fid,
      preview := PreviewCard.frame path,
      previewDisabled := false }
    (s2, sp.2 ++ e2 ++ [Ev.futStart fid, Ev.showFrame path], false)
  | (none, w, e2) =>
    ({ s1 with world := w }, sp.2 ++ e2, true)

/-- `render_code(q)` (lines 148-183).  `editorChange = some text` is a save
event carrying the new text of `q.client.open_file` (the external
`pythonify_js_code` collaborator is the identity on already-Python text);
`none` is the initial render that reads the file back.  For the entry file
the detector runs: `q.user.is_app` is updated from the marker test, and an
empty extracted path short-circuits into the empty preview without touching
the supervisor.  Any other outcome falls through to `renderLaunch`. -/
def render_code (s : IDEState) (editorChange : Option String) :
    IDEState × List Ev × Bool :=
  let s0 :=
    match editorChange with
    | some text => { s with files := writeFile s.files s.openFile text }
    | none => s
  let code :=
    match editorChange with
    | some text => text
    | none => readFile s0.files s0.openFile
  if s0.openFile = main_app_file then
    let s1 := { s0 with isApp := hasAppMarker code }
    let path := extractPath code
    if path = "" then (show_empty_preview s1, [Ev.showEmpty], false)
    else renderLaunch { s1 with activePath := path } path
  else renderLaunch s0 ""

/-- `on_shutdown()` (lines 191-192): remove the workspace folder.  Nothing
else: no process is stopped, no future cancelled. -/
def on_shutdown (s : IDEState) : IDEState :=
  { s with workspace := false }

/-! ### Session semantics -/

/-- External stimuli of one session: a save of the currently open file, a
file-viewer open event, a spontaneous child exit, server shutdown. -/
inductive Cmd
  | edit (text : String)
  | openF (file : String)
  | procExit (pid : Nat) (c : Int)
  | shutdown
deriving DecidableEq

/-- One stimulus.  A save runs `render_code` (a `Popen` exception
propagates to the framework's handler wrapper and the session survives);
a spontaneous exit flips a running child to `exited`. -/
def stepCmd (s : IDEState) : Cmd → IDEState × List Ev
  | Cmd.edit text =>
    let r := render_code s (some text)
    (r.1, r.2.1)
  | Cmd.openF f => ({ s with openFile := f }, [])
  | Cmd.procExit pid c =>
    if (s.world.statusOf pid).isRunning then
      ({ s with world := s.world.setStatus pid (ProcStatus.exited c) }, [Ev.exit pid])
    else (s, [])
  | Cmd.shutdown => (on_shutdown s, [Ev.teardown])

/-- Run a whole session, concatenating the emitted traces. -/
def runCmds (s : IDEState) : List Cmd → IDEState × List Ev
  | [] => (s, [])
  | c :: cs =>
    let r1 := stepCmd s c
    let r2 := runCmds r1.1 cs
    (r2.1, r1.2 ++ r2.2)

/-- The state right after `setup_page`/`on_startup` for a fresh session:
nothing started, empty preview, entry file open.  `spawnOk` records
whether the launch environment is intact. -/
def initState (ok : Bool) : IDEState :=
  { isApp := false, activePath := "", waveProcess := none,
    displayLogsFut := none, openFile := main_app_file, files := [],
    pages := [], preview := PreviewCard.empty, previewDisabled := true,
    logsContent := "", workspace := true,
    world := { procs := [], futs := [], spawnOk := ok } }

/-! Sample entry-file sources and session states used by the concrete
theorems below. -/

/-- An entry file registering a service at `/demo`. -/
def appDemoSrc : String := "x\n@app(\"/demo\")\n"

/-- An entry file registering a service at `/new`. -/
def appNewSrc : String := "y\n@app(\"/new\")\n"

/-- An entry file holding the registration marker `@app(` with no
extractable path in the registration call, plus an indexed-publish
subscript. -/
def siteAfterAppSrc : String := "@app(x)\nsite[\"/x\"]\n"

/-- A plain script: no registration marker, no quoted route anywhere. -/
def plainScriptSrc : String := "print(1)\n"

/-- The session state after one save of `appDemoSrc`: child 0 running,
streamer future 0 live, preview framed at `/demo`, entry file open. -/
def runningState : IDEState := (runCmds (initState true) [Cmd.edit appDemoSrc]).1

/-- Like `runningState`, but a non-entry file has been opened. -/
def nonEntryState : IDEState :=
  (runCmds (initState true) [Cmd.edit appDemoSrc, Cmd.openF "project/util.py"]).1

/-- `runningState` after the launch environment breaks (interpreter or
executable removed), so the next `Popen` raises. -/
def brokenSpawnState : IDEState :=
  { runningState with world := { runningState.world with spawnOk := false } }

/-! ### Trace safety

Temporal claims quantify over every intermediate point of a session, so we
fold the emitted event list through three cursor sets: pids of children
that are running (spawned, not yet terminated or exited), pids of children
that exist (spawned, not yet reaped by `wait`), and ids of streamer futures
that are live (started, cancellation not yet requested). -/

structure TSets where
  r : List Nat
  u : List Nat
  f : List Nat
deriving DecidableEq

def stepSets (t : TSets) : Ev → TSets
  | Ev.spawn p => { r := t.r ++ [p], u := t.u ++ [p], f := t.f }
  | Ev.term p => { t with r := t.r.filter (fun x => x != p) }
  | Ev.exit p => { t with r := t.r.filter (fun x => x != p) }
  | Ev.reap p => { t with u := t.u.filter (fun x => x != p) }
  | Ev.futStart i => { t with f := t.f ++ [i] }
  | Ev.futCancel i => { t with f := t.f.filter (fun x => x != i) }
  | _ => t

def foldSets (t : TSets) (tr : List Ev) : TSets := tr.foldl stepSets t

/-- Obligation holding at the instant an event fires: a spawn may only
happen when no child exists (running or unreaped) and no streamer future
is live — i.e. only after a fully completed stop. -/
def spawnPre (t : TSets) : Ev → Prop
  | Ev.spawn _ => t.r = [] ∧ t.u = [] ∧ t.f = []
  | _ => True

/-- Safety of a trace from cursor `t`: at every point at most one child is
running, and every spawn is preceded by a fully completed stop. -/
def traceSafe : TSets → List Ev → Prop
  | _, [] => True
  | t, e :: tr =>
    spawnPre t e ∧ (stepSets t e).r.length ≤ 1 ∧ traceSafe (stepSets t e) tr

/-- The cursor sets implied by a session state: only the current handle's
child can be unreaped, only the current future can be live. -/
def procSets (s : IDEState) : TSets :=
  { r := match s.waveProcess with
         | some h => if (s.world.statusOf h.pid).isRunning then [h.pid] else []
         | none => [],
    u := match s.waveProcess with
         | some h => if (s.world.statusOf h.pid).isReaped then [] else [h.pid]
         | none => [],
    f := match s.displayLogsFut with
         | some i => if s.world.futCancelled i then [] else [i] | none => [] }

theorem procSets_r_len (s : IDEState) : (procSets s).r.length ≤ 1 := by
  unfold procSets
  cases s.waveProcess with
  | none => simp
  | some h => cases hs : (s.world.statusOf h.pid).isRunning <;> simp [hs]

/-- The inductive invariant of a session: every child other than the
handle's is reaped; a handle with a cached `returncode` points at a reaped
child; every future other than the current one is cancelled. -/
structure StateOK (s : IDEState) : Prop where
  otherReaped : ∀ p : Nat, (∀ h, s.waveProcess = some h → p ≠ h.pid) →
    (s.world.statusOf p).isReaped = true
  handleRc : ∀ h, s.waveProcess = some h → h.returncode ≠ none →
    (s.world.statusOf h.pid).isReaped = true
  otherFut : ∀ i : Nat, (∀ j, s.displayLogsFut = some j → i ≠ j) →
    s.world.futCancelled i = true

theorem traceSafe_cons (t : TSets) (e : Ev) (tr : List Ev) :
    traceSafe t (e :: tr) ↔
      spawnPre t e ∧ (stepSets t e).r.length ≤ 1 ∧ traceSafe (stepSets t e) tr :=
  Iff.rfl

theorem traceSafe_append (t : TSets) (tr1 tr2 : List Ev) :
    traceSafe t (tr1 ++ tr2) ↔
      traceSafe t tr1 ∧ traceSafe (foldSets t tr1) tr2 := by
  induction tr1 generalizing t with
  | nil => simp [traceSafe, foldSets]
  | cons e tr ih =>
    rw [List.cons_append, traceSafe_cons, traceSafe_cons, ih]
    unfold foldSets
    rw [List.foldl_cons]
    tauto

theorem foldSets_append (t : TSets) (x y : List Ev) :
    foldSets t (x ++ y) = foldSets (foldSets t x) y :=
  List.foldl_append stepSets t x y

/-! World-level bookkeeping lemmas. -/

theorem World.statusOf_eq_of_get? (w : World) {p : Nat} {e : ProcEntry}
    (hg : w.procs.get? p = some e) : w.statusOf p = e.status := by
  unfold World.statusOf
  rw [hg]

theorem World.statusOf_eq_none (w : World) {p : Nat}
    (hg : w.procs.get? p = none) : w.statusOf p = ProcStatus.reaped 0 := by
  unfold World.statusOf
  rw [hg]

theorem World.setStatus_get?_self (w : World) (p : Nat) (st : ProcStatus)
    {e : ProcEntry} (hg : w.procs.get? p = some e) :
    (w.setStatus p st).procs.get? p = some { e with status := st } := by
  unfold World.setStatus
  rw [hg]
  rw [List.get?_set_eq, hg]
  rfl

theorem World.setStatus_none (w : World) {p : Nat} (st : ProcStatus)
    (hg : w.procs.get? p = none) : w.setStatus p st = w := by
  unfold World.setStatus
  rw [hg]

theorem World.statusOf_set_self (w : World) (p : Nat) (st : ProcStatus)
    {e : ProcEntry} (hg : w.procs.get? p = some e) :
    (w.setStatus p st).statusOf p = st :=
  (w.setStatus p st).statusOf_eq_of_get? (w.setStatus_get?_self p st hg)

theorem World.statusOf_set_other (w : World) (p : Nat) (st : ProcStatus)
    {q : Nat} (h : p ≠ q) :
    (w.setStatus p st).statusOf q = w.statusOf q := by
  unfold World.setStatus
  cases hg : w.procs.get? p with
  | none => rfl
  | some e =>
    unfold World.statusOf
    simp only []
    rw [List.get?_set_ne _ _ h]

theorem World.setStatus_futs (w : World) (p : Nat) (st : ProcStatus) :
    (w.setStatus p st).futs = w.futs := by
  unfold World.setStatus
  cases w.procs.get? p <;> rfl

theorem World.setStatus_spawnOk (w : World) (p : Nat) (st : ProcStatus) :
    (w.setStatus p st).spawnOk = w.spawnOk := by
  unfold World.setStatus
  cases w.procs.get? p <;> rfl

theorem World.futCancelled_congr {w1 w2 : World} (h : w1.futs = w2.futs)
    (i : Nat) : w1.futCancelled i = w2.futCancelled i := by
  unfold World.futCancelled
  rw [h]

theorem World.setStatus_futCancelled (w : World) (p : Nat) (st : ProcStatus)
    (i : Nat) : (w.setStatus p st).futCancelled i = w.futCancelled i :=
  World.futCancelled_congr (w.setStatus_futs p st) i

theorem World.termWait_self (w : World) (p : Nat) :
    ((((w.terminate p).wait p).1).statusOf p).isReaped = true := by
  unfold World.terminate World.wait
  cases hg : w.procs.get? p with
  | none =>
    rw [w.statusOf_eq_none hg]
    simp only []
    rw [w.statusOf_eq_none hg]
    simp [w.statusOf_eq_none hg, ProcStatus.isReaped]
  | some e =>
    rw [w.statusOf_eq_of_get? hg]
    cases hst : e.status with
    | running =>
      simp only []
      rw [World.statusOf_set_self _ _ _ hg]
      simp only []
      rw [World.statusOf_set_self _ _ _ (w.setStatus_get?_self p _ hg)]
      rfl
    | exited c =>
      simp only []
      rw [w.statusOf_eq_of_get? hg, hst]
      simp only []
      rw [World.statusOf_set_self _ _ _ hg]
      rfl
    | reaped c =>
      simp only []
      rw [w.statusOf_eq_of_get? hg, hst]
      simp only []
      rw [w.statusOf_eq_of_get? hg, hst]
      rfl

theorem World.termWait_other (w : World) {p q : Nat} (h : p ≠ q) :
    ((((w.terminate p).wait p).1).statusOf q) = w.statusOf q := by
  unfold World.terminate World.wait
  cases hg : w.procs.get? p with
  | none =>
    rw [w.statusOf_eq_none hg]
    simp only []
    rw [w.statusOf_eq_none hg]
  | some e =>
    rw [w.statusOf_eq_of_get? hg]
    cases hst : e.status with
    | running =>
      simp only []
      rw [World.statusOf_set_self _ _ _ hg]
      simp only []
      rw [World.statusOf_set_other _ _ _ h, World.statusOf_set_other _ _ _ h]
    | exited c =>
      simp only []
      rw [w.statusOf_eq_of_get? hg, hst]
      simp only []
      rw [World.statusOf_set_other _ _ _ h]
    | reaped c =>
      simp only []
      rw [w.statusOf_eq_of_get? hg, hst]

theorem World.termWait_futs (w : World) (p : Nat) :
    (((w.terminate p).wait p).1).futs = w.futs := by
  unfold World.terminate World.wait
  cases hg : w.procs.get? p with
  | none =>
    rw [w.statusOf_eq_none hg]
    simp only []
    rw [w.statusOf_eq_none hg]
  | some e =>
    rw [w.statusOf_eq_of_get? hg]
    cases hst : e.status with
    | running =>
      simp only []
      rw [World.statusOf_set_self _ _ _ hg]
      simp only []
      rw [World.setStatus_futs, World.setStatus_futs]
    | exited c =>
      simp only []
      rw [w.statusOf_eq_of_get? hg, hst]
      simp only []
      rw [World.setStatus_futs]
    | reaped c =>
      simp only []
      rw [w.statusOf_eq_of_get? hg, hst]

theorem World.termWait_spawnOk (w : World) (p : Nat) :
    (((w.terminate p).wait p).1).spawnOk = w.spawnOk := by
  unfold World.terminate World.wait
  cases hg : w.procs.get? p with
  | none =>
    rw [w.statusOf_eq_none hg]
    simp only []
    rw [w.statusOf_eq_none hg]
  | some e =>
    rw [w.statusOf_eq_of_get? hg]
    cases hst : e.status with
    | running =>
      simp only []
      rw [World.statusOf_set_self _ _ _ hg]
      simp only []
      rw [World.setStatus_spawnOk, World.setStatus_spawnOk]
    | exited c =>
      simp only []
      rw [w.statusOf_eq_of_get? hg, hst]
      simp only []
      rw [World.setStatus_spawnOk]
    | reaped c =>
      simp only []
      rw [w.statusOf_eq_of_get? hg, hst]

theorem World.cancelFut_self (w : World) (i : Nat) :
    (w.cancelFut i).futCancelled i = true := by
  unfold World.cancelFut World.futCancelled
  simp only []
  rw [List.get?_set_eq]
  cases w.futs.get? i <;> rfl

theorem World.cancelFut_other (w : World) {i j : Nat} (h : i ≠ j) :
    (w.cancelFut i).futCancelled j = w.futCancelled j := by
  unfold World.cancelFut World.futCancelled
  simp only []
  rw [List.get?_set_ne _ _ h]

theorem World.cancelFut_statusOf (w : World) (i p : Nat) :
    (w.cancelFut i).statusOf p = w.statusOf p := rfl

theorem World.cancelFut_spawnOk (w : World) (i : Nat) :
    (w.cancelFut i).spawnOk = w.spawnOk := rfl

theorem ProcStatus.isRunning_eq_false {st : ProcStatus}
    (h : st.isReaped = true) : st.isRunning = false := by
  cases st <;> simp_all [ProcStatus.isReaped, ProcStatus.isRunning]

/-! Transfer lemmas: the invariant and the cursor sets only read
`waveProcess`, `displayLogsFut` and `world`. -/

theorem stateOK_congr (s s' : IDEState) (hw : s'.world = s.world)
    (hp : s'.waveProcess = s.waveProcess)
    (hf : s'.displayLogsFut = s.displayLogsFut)
    (h : StateOK s) : StateOK s' := by
  constructor
  · intro p hh
    rw [hw]
    exact h.otherReaped p (by rw [← hp]; exact hh)
  · intro h2 hh hr
    rw [hw]
    exact h.handleRc h2 (by rw [← hp]; exact hh) hr
  · intro i hh
    rw [hw]
    exact h.otherFut i (by rw [← hf]; exact hh)

theorem procSets_congr (s s' : IDEState) (hw : s'.world = s.world)
    (hp : s'.waveProcess = s.waveProcess)
    (hf : s'.displayLogsFut = s.displayLogsFut) :
    procSets s' = procSets s := by
  unfold procSets
  rw [hw, hp, hf]

theorem procSets_stopped (s : IDEState)
    (hr : ∀ p : Nat, (s.world.statusOf p).isReaped = true) :
    (procSets s).r = [] ∧ (procSets s).u = [] := by
  unfold procSets
  cases hw : s.waveProcess with
  | none => exact ⟨rfl, rfl⟩
  | some h =>
    simp only []
    rw [ProcStatus.isRunning_eq_false (hr h.pid), hr h.pid]
    simp

theorem procSets_f_cancelled (s : IDEState)
    (hc : ∀ i : Nat, s.world.futCancelled i = true) :
    (procSets s).f = [] := by
  unfold procSets
  cases hf : s.displayLogsFut with
  | none => rfl
  | some i =>
    simp only []
    rw [hc i]
    simp

/-- The page-drop phase changes only `pages` and emits no process event. -/
theorem dropPage_spec (s : IDEState) :
    (dropPage s).1.isApp = s.isApp ∧
    (dropPage s).1.activePath = s.activePath ∧
    (dropPage s).1.waveProcess = s.waveProcess ∧
    (dropPage s).1.displayLogsFut = s.displayLogsFut ∧
    (dropPage s).1.openFile = s.openFile ∧
    (dropPage s).1.files = s.files ∧
    (dropPage s).1.preview = s.preview ∧
    (dropPage s).1.previewDisabled = s.previewDisabled ∧
    (dropPage s).1.logsContent = s.logsContent ∧
    (dropPage s).1.workspace = s.workspace ∧
    (dropPage s).1.world = s.world ∧
    traceSafe (procSets s) (dropPage s).2 ∧
    foldSets (procSets s) (dropPage s).2 = procSets s := by
  unfold dropPage
  split
  · exact ⟨rfl, rfl, rfl, rfl, rfl, rfl, rfl, rfl, rfl, rfl, rfl,
      ⟨trivial, procSets_r_len s, trivial⟩, rfl⟩
  · exact ⟨rfl, rfl, rfl, rfl, rfl, rfl, rfl, rfl, rfl, rfl, rfl,
      trivial, rfl⟩

/-- The terminate-and-wait phase: afterwards every child of the world is
reaped; futures, `spawnOk` and all session fields except the handle are
untouched; the emitted events drain the running and unreaped cursors. -/
theorem stopProc_spec (s : IDEState) (hOK : StateOK s) :
    (∀ p : Nat, ((stopProc s).1.world.statusOf p).isReaped = true) ∧
    (∀ i : Nat, (stopProc s).1.world.futCancelled i = s.world.futCancelled i) ∧
    (stopProc s).1.world.spawnOk = s.world.spawnOk ∧
    (stopProc s).1.displayLogsFut = s.displayLogsFut ∧
    (stopProc s).1.isApp = s.isApp ∧
    (stopProc s).1.activePath = s.activePath ∧
    (stopProc s).1.openFile = s.openFile ∧
    (stopProc s).1.files = s.files ∧
    (stopProc s).1.preview = s.preview ∧
    (stopProc s).1.previewDisabled = s.previewDisabled ∧
    (stopProc s).1.logsContent = s.logsContent ∧
    (stopProc s).1.workspace = s.workspace ∧
    (stopProc s).1.pages = s.pages ∧
    traceSafe (procSets s) (stopProc s).2 ∧
    foldSets (procSets s) (stopProc s).2 =
      { r := [], u := [], f := (procSets s).f } := by
  unfold stopProc
  cases hw : s.waveProcess with
  | none =>
    have hreap : ∀ p : Nat, ((s.world.statusOf p)).isReaped = true := by
      intro p
      refine hOK.otherReaped p ?_
      intro h' he
      rw [hw] at he
      cases he
    refine ⟨hreap, fun _ => rfl, rfl, rfl, rfl, rfl, rfl, rfl, rfl, rfl, rfl,
      rfl, rfl, trivial, ?_⟩
    have hru := procSets_stopped s hreap
    show procSets s = _
    cases hps : procSets s
    simp only [hps] at hru ⊢
    rw [hru.1, hru.2]
  | some h =>
    dsimp only []
    by_cases hr : h.returncode = none
    · rw [if_pos hr]
      constructor
      · intro p
        by_cases hp : p = h.pid
        · rw [hp]
          exact s.world.termWait_self h.pid
        · rw [World.termWait_other _ (fun he => hp he.symm)]
          refine hOK.otherReaped p ?_
          intro h' he
          rw [hw] at he
          cases he
          exact hp
      refine ⟨?_, ?_, rfl, rfl, rfl, rfl, rfl, rfl, rfl, rfl, rfl, rfl, ?_, ?_⟩
      · intro i
        exact World.futCancelled_congr (World.termWait_futs s.world h.pid) i
      · exact World.termWait_spawnOk s.world h.pid
      · refine ⟨trivial, ?_, trivial, ?_, trivial⟩
        · exact le_trans (List.length_filter_le _ _) (procSets_r_len s)
        · exact le_trans (List.length_filter_le _ _) (procSets_r_len s)
      · show stepSets (stepSets (procSets s) (Ev.term h.pid)) (Ev.reap h.pid) = _
        unfold procSets stepSets
        rw [hw]
        simp only []
        split <;> split <;> simp
    · rw [if_neg hr]
      have hreap : ∀ p : Nat, ((s.world.statusOf p)).isReaped = true := by
        intro p
        by_cases hp : p = h.pid
        · rw [hp]
          exact hOK.handleRc h hw hr
        · refine hOK.otherReaped p ?_
          intro h' he
          rw [hw] at he
          cases he
          exact hp
      refine ⟨hreap, fun _ => rfl, rfl, rfl, rfl, rfl, rfl, rfl, rfl, rfl, rfl,
        rfl, rfl, trivial, ?_⟩
      have hru := procSets_stopped s hreap
      show procSets s = _
      cases hps : procSets s
      simp only [hps] at hru ⊢
      rw [hru.1, hru.2]

/-- The streamer-cancel phase: afterwards every future is cancelled;
processes and all session fields except the world's future flags are
untouched; the emitted event drains the future cursor. -/
theorem cancelStreamer_spec (s : IDEState)
    (hOF : ∀ i : Nat, (∀ j, s.displayLogsFut = some j → i ≠ j) →
      s.world.futCancelled i = true) :
    (∀ i : Nat, (cancelStreamer s).1.world.futCancelled i = true) ∧
    (∀ p : Nat, (cancelStreamer s).1.world.statusOf p = s.world.statusOf p) ∧
    (cancelStreamer s).1.world.spawnOk = s.world.spawnOk ∧
    (cancelStreamer s).1.displayLogsFut = s.displayLogsFut ∧
    (cancelStreamer s).1.waveProcess = s.waveProcess ∧
    (cancelStreamer s).1.isApp = s.isApp ∧
    (cancelStreamer s).1.activePath = s.activePath ∧
    (cancelStreamer s).1.openFile = s.openFile ∧
    (cancelStreamer s).1.files = s.files ∧
    (cancelStreamer s).1.preview = s.preview ∧
    (cancelStreamer s).1.previewDisabled = s.previewDisabled ∧
    (cancelStreamer s).1.logsContent = s.logsContent ∧
    (cancelStreamer s).1.workspace = s.workspace ∧
    (cancelStreamer s).1.pages = s.pages ∧
    traceSafe { r := [], u := [], f := (procSets s).f } (cancelStreamer s).2 ∧
    foldSets { r := [], u := [], f := (procSets s).f } (cancelStreamer s).2 =
      { r := [], u := [], f := [] } := by
  unfold cancelStreamer
  cases hf : s.displayLogsFut with
  | none =>
    have hc : ∀ i : Nat, s.world.futCancelled i = true := by
      intro i
      refine hOF i ?_
      intro j he
      rw [hf] at he
      cases he
    refine ⟨hc, fun _ => rfl, rfl, hf, rfl, rfl, rfl, rfl, rfl, rfl, rfl, rfl,
      rfl, rfl, trivial, ?_⟩
    show ({ r := [], u := [], f := (procSets s).f } : TSets) = _
    rw [procSets_f_cancelled s hc]
  | some fid =>
    constructor
    · intro i
      show (s.world.cancelFut fid).futCancelled i = true
      by_cases hi : i = fid
      · rw [hi]
        exact World.cancelFut_self s.world fid
      · rw [World.cancelFut_other _ (fun he => hi he.symm)]
        refine hOF i ?_
        intro j he
        rw [hf] at he
        cases he
        exact hi
    refine ⟨fun p => World.cancelFut_statusOf s.world fid p,
      World.cancelFut_spawnOk s.world fid, rfl, rfl, rfl, rfl, rfl, rfl, rfl,
      rfl, rfl, rfl, rfl, ?_, ?_⟩
    · exact ⟨trivial, by simp [stepSets], trivial⟩
    · show stepSets { r := [], u := [], f := (procSets s).f } (Ev.futCancel fid) = _
      unfold procSets stepSets
      rw [hf]
      dsimp only []
      split <;> simp
/-- Full specification of `stop_previous` on an invariant-respecting state:
when it returns, every child the orchestrator ever spawned is reaped (in
particular none is running) and every streamer future is cancelled; the
classification fields, the open file, the page cards and the workspace are
untouched; the emitted events are safe and drain all three cursors. -/
theorem stop_spec (s : IDEState) (hOK : StateOK s) :
    (∀ p : Nat, ((stop_previous s).1.world.statusOf p).isReaped = true) ∧
    (∀ i : Nat, (stop_previous s).1.world.futCancelled i = true) ∧
    (stop_previous s).1.world.spawnOk = s.world.spawnOk ∧
    (stop_previous s).1.isApp = s.isApp ∧
    (stop_previous s).1.activePath = s.activePath ∧
    (stop_previous s).1.openFile = s.openFile ∧
    (stop_previous s).1.files = s.files ∧
    (stop_previous s).1.preview = s.preview ∧
    (stop_previous s).1.previewDisabled = s.previewDisabled ∧
    (stop_previous s).1.logsContent = s.logsContent ∧
    (stop_previous s).1.workspace = s.workspace ∧
    (stop_previous s).1.displayLogsFut = s.displayLogsFut ∧
    traceSafe (procSets s) (stop_previous s).2 ∧
    foldSets (procSets s) (stop_previous s).2 = { r := [], u := [], f := [] } ∧
    procSets (stop_previous s).1 = { r := [], u := [], f := [] } := by
  obtain ⟨a1, a2, a3, a4, a5, a6, a7, a8, a9, a10, a11, a12, a13⟩ :=
    dropPage_spec s
  have hOK1 : StateOK (dropPage s).1 := stateOK_congr s _ a11 a3 a4 hOK
  have hps1 : procSets (dropPage s).1 = procSets s := procSets_congr s _ a11 a3 a4
  obtain ⟨b1, b2, b3, b4, b5, b6, b7, b8, b9, b10, b11, b12, b13, b14, b15⟩ :=
    stopProc_spec (dropPage s).1 hOK1
  set s2 := (stopProc (dropPage s).1).1 with hs2
  have hOF2 : ∀ i : Nat, (∀ j, s2.displayLogsFut = some j → i ≠ j) →
      s2.world.futCancelled i = true := by
    intro i hi
    rw [b2 i, a11]
    refine hOK.otherFut i ?_
    intro j hj
    refine hi j ?_
    rw [b4, a4, hj]
  obtain ⟨c1, c2, c3, c4, c5, c6, c7, c8, c9, c10, c11, c12, c13, c14, c15, c16⟩ :=
    cancelStreamer_spec s2 hOF2
  have hps2 : procSets s2 = { r := [], u := [], f := (procSets s).f } := by
    have hru := procSets_stopped s2 b1
    have hffut : (procSets s2).f = (procSets s).f := by
      unfold procSets
      rw [b4, a4]
      cases hd : s.displayLogsFut with
      | none => rfl
      | some j =>
        dsimp only []
        rw [b2 j, a11]
    cases hps : procSets s2
    simp only [hps] at hru hffut ⊢
    rw [hru.1, hru.2, hffut]
  have hreap3 : ∀ p : Nat,
      (((stop_previous s).1).world.statusOf p).isReaped = true := by
    intro p
    show ((cancelStreamer s2).1.world.statusOf p).isReaped = true
    rw [c2 p]
    exact b1 p
  have hfut3 : ∀ i : Nat, ((stop_previous s).1).world.futCancelled i = true := by
    intro i
    exact c1 i
  refine ⟨hreap3, hfut3, ?_, ?_, ?_, ?_, ?_, ?_, ?_, ?_, ?_, ?_, ?_, ?_, ?_⟩
  · show (cancelStreamer s2).1.world.spawnOk = s.world.spawnOk
    rw [c3, b3, a11]
  · show (cancelStreamer s2).1.isApp = s.isApp
    rw [c6, b5, a1]
  · show (cancelStreamer s2).1.activePath = s.activePath
    rw [c7, b6, a2]
  · show (cancelStreamer s2).1.openFile = s.openFile
    rw [c8, b7, a5]
  · show (cancelStreamer s2).1.files = s.files
    rw [c9, b8, a6]
  · show (cancelStreamer s2).1.preview = s.preview
    rw [c10, b9, a7]
  · show (cancelStreamer s2).1.previewDisabled = s.previewDisabled
    rw [c11, b10, a8]
  · show (cancelStreamer s2).1.logsContent = s.logsContent
    rw [c12, b11, a9]
  · show (cancelStreamer s2).1.workspace = s.workspace
    rw [c13, b12, a10]
  · show (cancelStreamer s2).1.displayLogsFut = s.displayLogsFut
    rw [c4, b4, a4]
  · have htr : (stop_previous s).2 =
        (dropPage s).2 ++ (stopProc (dropPage s).1).2 ++ (cancelStreamer s2).2 :=
      rfl
    have h1 : foldSets (procSets s)
        ((dropPage s).2 ++ (stopProc (dropPage s).1).2) =
        { r := [], u := [], f := (procSets s).f } := by
      rw [foldSets_append, a13, ← hps1]
      exact b15
    have hf2 : (procSets s2).f = (procSets s).f := by rw [hps2]
    rw [htr, traceSafe_append, traceSafe_append]
    refine ⟨⟨a12, ?_⟩, ?_⟩
    · rw [a13, ← hps1]
      exact b14
    · rw [h1, ← hf2]
      exact c15
  · have htr : (stop_previous s).2 =
        (dropPage s).2 ++ (stopProc (dropPage s).1).2 ++ (cancelStreamer s2).2 :=
      rfl
    have h1 : foldSets (procSets s)
        ((dropPage s).2 ++ (stopProc (dropPage s).1).2) =
        { r := [], u := [], f := (procSets s).f } := by
      rw [foldSets_append, a13, ← hps1]
      exact b15
    have hf2 : (procSets s2).f = (procSets s).f := by rw [hps2]
    rw [htr, foldSets_append, h1, ← hf2]
    exact c16
  · show procSets (cancelStreamer s2).1 = _
    have h1 := procSets_stopped (cancelStreamer s2).1
      (fun p => by rw [c2 p]; exact b1 p)
    have h2 := procSets_f_cancelled (cancelStreamer s2).1 c1
    cases hps : procSets (cancelStreamer s2).1
    simp only [hps] at h1 h2 ⊢
    rw [h1.1, h1.2, h2]

theorem World.statusOf_concat_ne (w : World) (e : ProcEntry) {p : Nat}
    (hp : p ≠ w.procs.length) (w2 : World)
    (h2 : w2.procs = w.procs ++ [e]) :
    w2.statusOf p = w.statusOf p := by
  unfold World.statusOf
  rw [h2]
  by_cases hlt : p < w.procs.length
  · rw [List.get?_append hlt]
  · have ha : (w.procs ++ [e]).get? p = none := by
      refine List.get?_eq_none.mpr ?_
      simp only [List.length_append, List.length_cons, List.length_nil]
      omega
    have hb : w.procs.get? p = none := List.get?_eq_none.mpr (by omega)
    rw [ha, hb]

theorem World.statusOf_concat_self (w : World) (e : ProcEntry) (w2 : World)
    (h2 : w2.procs = w.procs ++ [e]) :
    w2.statusOf w.procs.length = e.status := by
  unfold World.statusOf
  rw [h2, List.get?_concat_length]

theorem World.futCancelled_concat_ne (w : World) (b : Bool) {i : Nat}
    (hi : i ≠ w.futs.length) (w2 : World)
    (h2 : w2.futs = w.futs ++ [b]) :
    w2.futCancelled i = w.futCancelled i := by
  unfold World.futCancelled
  rw [h2]
  by_cases hlt : i < w.futs.length
  · rw [List.get?_append hlt]
  · have ha : (w.futs ++ [b]).get? i = none := by
      refine List.get?_eq_none.mpr ?_
      simp only [List.length_append, List.length_cons, List.length_nil]
      omega
    have hb : w.futs.get? i = none := List.get?_eq_none.mpr (by omega)
    rw [ha, hb]

theorem World.futCancelled_concat_self (w : World) (b : Bool) (w2 : World)
    (h2 : w2.futs = w.futs ++ [b]) :
    w2.futCancelled w.futs.length = b := by
  unfold World.futCancelled
  rw [h2, List.get?_concat_length]

/-- Safety of one `stop_previous`-then-`start` cycle: the emitted events are
safe from the state's cursors (in particular the spawn fires only after the
completed stop), the invariant is re-established, and the cursors after the
cycle are exactly the new state's. -/
theorem renderLaunch_spec (s : IDEState) (hOK : StateOK s) (path : String) :
    traceSafe (procSets s) (renderLaunch s path).2.1 ∧
    StateOK (renderLaunch s path).1 ∧
    foldSets (procSets s) (renderLaunch s path).2.1 =
      procSets (renderLaunch s path).1 := by
  obtain ⟨d1, d2, d3, d4, d5, d6, d7, d8, d9, d10, d11, d12, d13, d14, d15⟩ :=
    stop_spec s hOK
  unfold renderLaunch start
  dsimp only []
  by_cases hs : (stop_previous s).1.world.spawnOk = true
  · rw [if_pos hs]
    dsimp only []
    refine ⟨?_, ?_, ?_⟩
    · rw [traceSafe_append, traceSafe_append]
      refine ⟨⟨d13, ?_⟩, ?_⟩
      · rw [d14]
        exact ⟨⟨rfl, rfl, rfl⟩, by simp [stepSets], trivial⟩
      · rw [foldSets_append, d14]
        refine ⟨trivial, ?_, trivial, ?_, trivial⟩
        · simp [foldSets, stepSets]
        · simp [foldSets, stepSets]
    · constructor
      · intro p hp
        have hpn : p ≠ (stop_previous s).1.world.procs.length := hp _ rfl
        rw [World.statusOf_concat_ne (stop_previous s).1.world _ hpn _ rfl]
        exact d1 p
      · intro h' he' hrc
        cases he'
        exact absurd rfl hrc
      · intro i hi
        have hin : i ≠ (stop_previous s).1.world.futs.length := hi _ rfl
        rw [World.futCancelled_concat_ne (stop_previous s).1.world false hin _ rfl]
        exact d2 i
    · rw [foldSets_append, foldSets_append, d14]
      unfold procSets
      dsimp only [stepSets, foldSets, List.foldl]
      rw [World.statusOf_concat_self (stop_previous s).1.world _ _ rfl,
        World.futCancelled_concat_self (stop_previous s).1.world false _ rfl]
      simp [ProcStatus.isRunning, ProcStatus.isReaped]
  · rw [if_neg hs]
    dsimp only []
    refine ⟨?_, ?_, ?_⟩
    · rw [traceSafe_append]
      refine ⟨d13, ?_⟩
      rw [d14]
      exact ⟨trivial, by simp [stepSets], trivial⟩
    · constructor
      · intro p hp
        exact d1 p
      · intro h' he' hrc
        exact d1 h'.pid
      · intro i hi
        exact d2 i
    · rw [foldSets_append, d14]
      have hru := procSets_stopped (stop_previous s).1 d1
      have hfc := procSets_f_cancelled (stop_previous s).1 d2
      show stepSets { r := [], u := [], f := [] } Ev.spawnFail = procSets _
      rw [show stepSets { r := [], u := [], f := [] } Ev.spawnFail =
        ({ r := [], u := [], f := [] } : TSets) from rfl]
      have : procSets (stop_previous s).1 = { r := [], u := [], f := [] } := d15
      rw [← this]

theorem World.running_entry (w : World) {p : Nat}
    (h : (w.statusOf p).isRunning = true) :
    ∃ e, w.procs.get? p = some e ∧ e.status = ProcStatus.running := by
  unfold World.statusOf at h
  cases hg : w.procs.get? p with
  | none =>
    rw [hg] at h
    simp [ProcStatus.isRunning] at h
  | some e =>
    rw [hg] at h
    refine ⟨e, rfl, ?_⟩
    cases hs : e.status <;> simp_all [ProcStatus.isRunning]

/-- Safety of one `render_code` call on an invariant-respecting state. -/
theorem render_spec (s : IDEState) (hOK : StateOK s) (text : String) :
    traceSafe (procSets s) (render_code s (some text)).2.1 ∧
    StateOK (render_code s (some text)).1 ∧
    foldSets (procSets s) (render_code s (some text)).2.1 =
      procSets (render_code s (some text)).1 := by
  unfold render_code
  dsimp only []
  by_cases hof : s.openFile = main_app_file
  · rw [if_pos hof]
    by_cases hp : extractPath text = ""
    · rw [if_pos hp]
      refine ⟨⟨trivial, procSets_r_len s, trivial⟩,
        stateOK_congr s _ rfl rfl rfl hOK, ?_⟩
      show procSets s = _
      exact (procSets_congr s _ rfl rfl rfl).symm
    · rw [if_neg hp]
      have hOK1 : StateOK ({ s with
          files := writeFile s.files s.openFile text,
          isApp := hasAppMarker text, activePath := extractPath text }) :=
        stateOK_congr s _ rfl rfl rfl hOK
      obtain ⟨e1, e2, e3⟩ := renderLaunch_spec _ hOK1 (extractPath text)
      have hps : procSets ({ s with
          files := writeFile s.files s.openFile text,
          isApp := hasAppMarker text, activePath := extractPath text }) =
          procSets s := procSets_congr s _ rfl rfl rfl
      rw [hps] at e1 e3
      exact ⟨e1, e2, e3⟩
  · rw [if_neg hof]
    have hOK1 : StateOK ({ s with
        files := writeFile s.files s.openFile text }) :=
      stateOK_congr s _ rfl rfl rfl hOK
    obtain ⟨e1, e2, e3⟩ := renderLaunch_spec _ hOK1 ""
    have hps : procSets ({ s with
        files := writeFile s.files s.openFile text }) = procSets s :=
      procSets_congr s _ rfl rfl rfl
    rw [hps] at e1 e3
    exact ⟨e1, e2, e3⟩

/-- Safety of one external stimulus. -/
theorem stepCmd_spec (s : IDEState) (hOK : StateOK s) (c : Cmd) :
    traceSafe (procSets s) (stepCmd s c).2 ∧
    StateOK (stepCmd s c).1 ∧
    foldSets (procSets s) (stepCmd s c).2 = procSets (stepCmd s c).1 := by
  cases c with
  | edit text => exact render_spec s hOK text
  | openF f =>
    exact ⟨trivial, stateOK_congr s _ rfl rfl rfl hOK,
      (procSets_congr s _ rfl rfl rfl).symm⟩
  | shutdown =>
    refine ⟨⟨trivial, procSets_r_len s, trivial⟩,
      stateOK_congr s _ rfl rfl rfl hOK, ?_⟩
    show procSets s = _
    exact (procSets_congr s _ rfl rfl rfl).symm
  | procExit pid cex =>
    unfold stepCmd
    dsimp only []
    by_cases hrun : (s.world.statusOf pid).isRunning = true
    · rw [if_pos hrun]
      have hnr : (s.world.statusOf pid).isReaped = false := by
        cases hq : s.world.statusOf pid <;>
          simp_all [ProcStatus.isRunning, ProcStatus.isReaped]
      have hh : ∃ h, s.waveProcess = some h ∧ pid = h.pid := by
        by_contra hcon
        push_neg at hcon
        have := hOK.otherReaped pid (fun h' he => hcon h' he)
        rw [this] at hnr
        cases hnr
      obtain ⟨h, hw, hpid⟩ := hh
      obtain ⟨e, hg, hst⟩ := World.running_entry s.world hrun
      refine ⟨⟨trivial,
        le_trans (List.length_filter_le _ _) (procSets_r_len s), trivial⟩,
        ?_, ?_⟩
      · constructor
        · intro p hp
          have hpn : p ≠ pid := by
            rw [hpid]
            exact hp h hw
          rw [World.statusOf_set_other _ _ _ (fun he => hpn he.symm)]
          refine hOK.otherReaped p ?_
          intro h' he'
          rw [hw] at he'
          cases he'
          rw [← hpid]
          exact hpn
        · intro h' he' hrc
          show ((s.world.setStatus pid (ProcStatus.exited cex)).statusOf
            h'.pid).isReaped = true
          rw [hw] at he'
          cases he'
          have := hOK.handleRc h hw hrc
          rw [← hpid] at this
          rw [this] at hnr
          cases hnr
        · intro i hi
          rw [World.setStatus_futCancelled]
          exact hOK.otherFut i hi
      · show stepSets (procSets s) (Ev.exit pid) = procSets _
        unfold procSets stepSets
        rw [hw]
        dsimp only []
        rw [← hpid, hrun]
        rw [World.statusOf_set_self _ _ _ hg]
        rw [hnr]
        simp only [TSets.mk.injEq]
        refine ⟨?_, ?_, ?_⟩
        · simp [ProcStatus.isRunning]
        · simp [ProcStatus.isReaped]
        · cases hd : s.displayLogsFut with
          | none => rfl
          | some j =>
            dsimp only []
            rw [World.setStatus_futCancelled]
    · rw [if_neg hrun]
      exact ⟨trivial, stateOK_congr s _ rfl rfl rfl hOK,
        (procSets_congr s _ rfl rfl rfl).symm⟩

/-- Session safety, generalized over the start state. -/
theorem runCmds_spec (cmds : List Cmd) : ∀ s : IDEState, StateOK s →
    traceSafe (procSets s) (runCmds s cmds).2 ∧
    StateOK (runCmds s cmds).1 ∧
    foldSets (procSets s) (runCmds s cmds).2 = procSets (runCmds s cmds).1 := by
  induction cmds with
  | nil => exact fun s h => ⟨trivial, h, rfl⟩
  | cons c cs ih =>
    intro s h
    obtain ⟨t1, t2, t3⟩ := stepCmd_spec s h c
    obtain ⟨u1, u2, u3⟩ := ih (stepCmd s c).1 t2
    have hsplit : (runCmds s (c :: cs)).2 =
        (stepCmd s c).2 ++ (runCmds (stepCmd s c).1 cs).2 := rfl
    have hfst : (runCmds s (c :: cs)).1 = (runCmds (stepCmd s c).1 cs).1 := rfl
    refine ⟨?_, by rw [hfst]; exact u2, ?_⟩
    · rw [hsplit, traceSafe_append, t3]
      exact ⟨t1, u1⟩
    · rw [hsplit, hfst, foldSets_append, t3]
      exact u3

theorem initState_ok (ok : Bool) : StateOK (initState ok) := by
  constructor
  · intro p hp
    rfl
  · intro h he
    cases he
  · intro i hi
    rfl

/-! Field-preservation lemmas that hold for every state (no invariant
needed): each stop phase touches only its own slice of the state. -/

theorem stopProc_fields (s : IDEState) :
    (stopProc s).1.isApp = s.isApp ∧
    (stopProc s).1.activePath = s.activePath ∧
    (stopProc s).1.displayLogsFut = s.displayLogsFut ∧
    (stopProc s).1.openFile = s.openFile ∧
    (stopProc s).1.files = s.files ∧
    (stopProc s).1.preview = s.preview ∧
    (stopProc s).1.previewDisabled = s.previewDisabled ∧
    (stopProc s).1.logsContent = s.logsContent ∧
    (stopProc s).1.workspace = s.workspace ∧
    (stopProc s).1.pages = s.pages ∧
    (stopProc s).1.world.spawnOk = s.world.spawnOk ∧
    (stopProc s).1.world.futs = s.world.futs := by
  unfold stopProc
  cases hw : s.waveProcess with
  | none =>
    exact ⟨rfl, rfl, rfl, rfl, rfl, rfl, rfl, rfl, rfl, rfl, rfl, rfl⟩
  | some h =>
    dsimp only []
    by_cases hr : h.returncode = none
    · rw [if_pos hr]
      exact ⟨rfl, rfl, rfl, rfl, rfl, rfl, rfl, rfl, rfl, rfl,
        World.termWait_spawnOk s.world h.pid, World.termWait_futs s.world h.pid⟩
    · rw [if_neg hr]
      exact ⟨rfl, rfl, rfl, rfl, rfl, rfl, rfl, rfl, rfl, rfl, rfl, rfl⟩

theorem cancelStreamer_fields (s : IDEState) :
    (cancelStreamer s).1.isApp = s.isApp ∧
    (cancelStreamer s).1.activePath = s.activePath ∧
    (cancelStreamer s).1.waveProcess = s.waveProcess ∧
    (cancelStreamer s).1.displayLogsFut = s.displayLogsFut ∧
    (cancelStreamer s).1.openFile = s.openFile ∧
    (cancelStreamer s).1.files = s.files ∧
    (cancelStreamer s).1.preview = s.preview ∧
    (cancelStreamer s).1.previewDisabled = s.previewDisabled ∧
    (cancelStreamer s).1.logsContent = s.logsContent ∧
    (cancelStreamer s).1.workspace = s.workspace ∧
    (cancelStreamer s).1.pages = s.pages ∧
    (cancelStreamer s).1.world.spawnOk = s.world.spawnOk ∧
    (cancelStreamer s).1.world.procs = s.world.procs := by
  unfold cancelStreamer
  cases hf : s.displayLogsFut with
  | none => exact ⟨rfl, rfl, rfl, hf, rfl, rfl, rfl, rfl, rfl, rfl, rfl, rfl, rfl⟩
  | some fid => exact ⟨rfl, rfl, rfl, rfl, rfl, rfl, rfl, rfl, rfl, rfl, rfl, rfl, rfl⟩

/-- Field preservation across the whole of `stop_previous`, for every
state. -/
theorem stop_fields (s : IDEState) :
    (stop_previous s).1.isApp = s.isApp ∧
    (stop_previous s).1.activePath = s.activePath ∧
    (stop_previous s).1.displayLogsFut = s.displayLogsFut ∧
    (stop_previous s).1.openFile = s.openFile ∧
    (stop_previous s).1.files = s.files ∧
    (stop_previous s).1.preview = s.preview ∧
    (stop_previous s).1.previewDisabled = s.previewDisabled ∧
    (stop_previous s).1.logsContent = s.logsContent ∧
    (stop_previous s).1.workspace = s.workspace ∧
    (stop_previous s).1.world.spawnOk = s.world.spawnOk := by
  obtain ⟨a1, a2, a3, a4, a5, a6, a7, a8, a9, a10, a11, a12, a13⟩ :=
    dropPage_spec s
  obtain ⟨b1, b2, b3, b4, b5, b6, b7, b8, b9, b10, b11, b12⟩ :=
    stopProc_fields (dropPage s).1
  obtain ⟨c1, c2, c3, c4, c5, c6, c7, c8, c9, c10, c11, c12, c13⟩ :=
    cancelStreamer_fields (stopProc (dropPage s).1).1
  have hfst : (stop_previous s).1 = (cancelStreamer (stopProc (dropPage s).1).1).1 := rfl
  rw [hfst]
  refine ⟨?_, ?_, ?_, ?_, ?_, ?_, ?_, ?_, ?_, ?_⟩
  · rw [c1, b1, a1]
  · rw [c2, b2, a2]
  · rw [c4, b3, a4]
  · rw [c5, b4, a5]
  · rw [c6, b5, a6]
  · rw [c7, b6, a7]
  · rw [c8, b7, a8]
  · rw [c9, b8, a9]
  · rw [c10, b9, a10]
  · rw [c12, b11]
    exact congrArg World.spawnOk a11

/-- `stop_previous` never spawns. -/
theorem stop_no_spawn (s : IDEState) (p : Nat) :
    Ev.spawn p ∉ (stop_previous s).2 := by
  have htr : (stop_previous s).2 =
      (dropPage s).2 ++ (stopProc (dropPage s).1).2 ++
        (cancelStreamer (stopProc (dropPage s).1).1).2 := rfl
  rw [htr]
  intro hmem
  rw [List.mem_append, List.mem_append] at hmem
  rcases hmem with (h1 | h2) | h3
  · unfold dropPage at h1
    revert h1
    split <;> simp
  · unfold stopProc at h2
    revert h2
    cases (dropPage s).1.waveProcess with
    | none => simp
    | some h =>
      dsimp only []
      split <;> simp
  · unfold cancelStreamer at h3
    revert h3
    cases (stopProc (dropPage s).1).1.displayLogsFut with
    | none => simp
    | some fid => simp

/-- Behaviour of a `stop`+`start` cycle visible to the caller, for every
state: classification fields survive, and what happens to the preview and
the trace depends only on whether `Popen` can spawn. -/
theorem renderLaunch_fields (s : IDEState) (path : String) :
    (renderLaunch s path).1.isApp = s.isApp ∧
    (renderLaunch s path).1.activePath = s.activePath ∧
    (s.world.spawnOk = true →
      (renderLaunch s path).1.preview = PreviewCard.frame path ∧
      (renderLaunch s path).1.previewDisabled = false ∧
      (renderLaunch s path).2.2 = false ∧
      ∃ p, Ev.spawn p ∈ (renderLaunch s path).2.1) ∧
    (s.world.spawnOk = false →
      (renderLaunch s path).1.preview = s.preview ∧
      (renderLaunch s path).2.2 = true ∧
      (∀ p, Ev.spawn p ∉ (renderLaunch s path).2.1)) := by
  obtain ⟨s1, s2, s3, s4, s5, s6, s7, s8, s9, s10⟩ := stop_fields s
  unfold renderLaunch start
  dsimp only []
  by_cases hs : (stop_previous s).1.world.spawnOk = true
  · rw [if_pos hs]
    dsimp only []
    refine ⟨s1, s2, ?_, ?_⟩
    · intro hok
      refine ⟨rfl, rfl, rfl, ⟨(stop_previous s).1.world.procs.length, ?_⟩⟩
      rw [List.mem_append, List.mem_append]
      left
      right
      simp
    · intro hbad
      rw [s10] at hs
      rw [hs] at hbad
      cases hbad
  · rw [if_neg hs]
    dsimp only []
    refine ⟨s1, s2, ?_, ?_⟩
    · intro hok
      rw [s10] at hs
      exact absurd hok hs
    · intro hbad
      refine ⟨s6, rfl, ?_⟩
      intro p hmem
      rw [List.mem_append] at hmem
      rcases hmem with h1 | h2
      · exact stop_no_spawn s p h1
      · simp at h2
  
/-- The early-return path of `render_code` (lines 166-168): saving the
entry file with no extractable route path writes the file, refreshes
`q.user.is_app`, swaps in the empty-state preview card, and returns before
`stop_previous` or `start` is reached. -/
theorem render_early (s : IDEState) (code : String)
    (hof : s.openFile = main_app_file) (hp : extractPath code = "") :
    render_code s (some code) =
      (show_empty_preview
        { s with files := writeFile s.files s.openFile code,
                 isApp := hasAppMarker code },
       [Ev.showEmpty], false) := by
  unfold render_code
  dsimp only []
  rw [if_pos hof, if_pos hp]

theorem filter_idem {α : Type} (p : α → Bool) (l : List α) :
    (l.filter p).filter p = l.filter p := by
  induction l with
  | nil => rfl
  | cons a l ih =>
    by_cases hp : p a <;> simp [List.filter_cons, hp, ih]

theorem set_same {α : Type} (l : List α) (i : Nat) (a : α)
    (h : l.get? i = some a) : l.set i a = l := by
  induction l generalizing i with
  | nil => cases h
  | cons b l ih =>
    cases i with
    | zero =>
      cases h
      rfl
    | succ j =>
      show b :: l.set j a = b :: l
      rw [ih j h]

theorem set_oob {α : Type} (l : List α) (i : Nat) (a : α)
    (h : l.length ≤ i) : l.set i a = l := by
  induction l generalizing i with
  | nil => rfl
  | cons b l ih =>
    cases i with
    | zero => simp at h
    | succ j =>
      show b :: l.set j a = b :: l
      rw [ih j (by simp at h; omega)]

/-- Cancelling a future whose flag already reads cancelled changes
nothing. -/
theorem World.cancelFut_of_cancelled (w : World) (i : Nat)
    (h : w.futCancelled i = true) : w.cancelFut i = w := by
  unfold World.futCancelled at h
  unfold World.cancelFut
  cases hg : w.futs.get? i with
  | none =>
    have : w.futs.set i true = w.futs :=
      set_oob w.futs i true (List.get?_eq_none.mp hg)
    rw [this]
  | some b =>
    rw [hg] at h
    cases h
    have : w.futs.set i true = w.futs := set_same w.futs i true hg
    rw [this]

/-- States on which `stop_previous` is a no-op (state-wise): the page at
the active path is already dropped, the handle (if any) has a cached exit
status, and the streamer future (if any) is already cancelled. -/
def Stopped (t : IDEState) : Prop :=
  (t.isApp = false ∧ t.activePath ≠ "" →
    t.pages.filter (fun p => p ≠ t.activePath) = t.pages) ∧
  (∀ h, t.waveProcess = some h → h.returncode ≠ none) ∧
  (∀ fid, t.displayLogsFut = some fid → t.world.futCancelled fid = true)

theorem stop_of_stopped (t : IDEState) (h : Stopped t) :
    (stop_previous t).1 = t := by
  obtain ⟨h1, h2, h3⟩ := h
  have ha : (dropPage t).1 = t := by
    unfold dropPage
    split
    case isTrue hc =>
      rw [h1 hc]
    case isFalse hc => rfl
  have hb : (stopProc t).1 = t := by
    unfold stopProc
    cases hw : t.waveProcess with
    | none => rfl
    | some hh =>
      dsimp only []
      rw [if_neg (h2 hh hw)]
  have hc : (cancelStreamer t).1 = t := by
    unfold cancelStreamer
    cases hf : t.displayLogsFut with
    | none => rfl
    | some fid =>
      dsimp only []
      rw [World.cancelFut_of_cancelled t.world fid (h3 fid hf), ← hf]
  show (cancelStreamer (stopProc (dropPage t).1).1).1 = t
  rw [ha, hb, hc]

theorem stopProc_rc (s : IDEState) :
    ∀ h, (stopProc s).1.waveProcess = some h → h.returncode ≠ none := by
  unfold stopProc
  cases hw : s.waveProcess with
  | none =>
    intro h he
    rw [hw] at he
    cases he
  | some h0 =>
    dsimp only []
    by_cases hr : h0.returncode = none
    · rw [if_pos hr]
      intro h he
      cases he
      simp
    · rw [if_neg hr]
      intro h he
      rw [hw] at he
      cases he
      exact hr

theorem cancelStreamer_cancelled (t : IDEState) (fid : Nat)
    (hf : t.displayLogsFut = some fid) :
    (cancelStreamer t).1.world.futCancelled fid = true := by
  unfold cancelStreamer
  rw [hf]
  dsimp only []
  exact World.cancelFut_self t.world fid

/-- After one `stop_previous`, the state is `Stopped`. -/
theorem stopped_after_stop (s : IDEState) : Stopped ((stop_previous s).1) := by
  obtain ⟨a1, a2, a3, a4, a5, a6, a7, a8, a9, a10, a11, a12, a13⟩ :=
    dropPage_spec s
  obtain ⟨b1, b2, b3, b4, b5, b6, b7, b8, b9, b10, b11, b12⟩ :=
    stopProc_fields (dropPage s).1
  obtain ⟨c1, c2, c3, c4, c5, c6, c7, c8, c9, c10, c11, c12, c13⟩ :=
    cancelStreamer_fields (stopProc (dropPage s).1).1
  have hfst : (stop_previous s).1 =
      (cancelStreamer (stopProc (dropPage s).1).1).1 := rfl
  refine ⟨?_, ?_, ?_⟩
  · intro hcond
    rw [hfst, c11, b10, c2, b2, a2]
    rw [hfst, c1, b1, a1, c2, b2, a2] at hcond
    unfold dropPage
    rw [if_pos hcond]
    dsimp only []
    exact filter_idem _ s.pages
  · intro h he
    rw [hfst, c3] at he
    exact stopProc_rc (dropPage s).1 h he
  · intro fid hf
    rw [hfst, c4, b3, a4] at hf
    rw [hfst]
    have hf2 : (stopProc (dropPage s).1).1.displayLogsFut = some fid := by
      rw [b3, a4]
      exact hf
    exact cancelStreamer_cancelled (stopProc (dropPage s).1).1 fid hf2

theorem join_concat (l : List String) (s0 : String) :
    String.join (l ++ [s0]) = String.join l ++ s0 := by
  simp [String.join, List.foldl_append]

/-- Within one run of `display_logs`, the successive buffer contents form
an append chain starting from the initial accumulated text. -/
theorem displayLogs_chain (evs : List ReadEv) : ∀ lines : List String,
    List.Chain' appendExt (String.join lines :: displayLogsBufs lines evs) := by
  induction evs with
  | nil =>
    intro lines
    simp [displayLogsBufs, displayLogsRun]
  | cons e evs ih =>
    intro lines
    cases e with
    | line s0 =>
      show List.Chain' appendExt (String.join lines ::
        String.join (lines ++ [s0]) :: displayLogsBufs (lines ++ [s0]) evs)
      rw [List.chain'_cons]
      exact ⟨⟨s0, (join_concat lines s0).symm ▸ rfl⟩, ih (lines ++ [s0])⟩
    | noData =>
      show List.Chain' appendExt (String.join lines :: displayLogsBufs lines evs)
      exact ih lines
    | badLine =>
      show List.Chain' appendExt [String.join lines]
      simp

/-- Every published buffer is the concatenation of a prefix of the lines
successfully read in this run, appended to the initial accumulated text:
content never comes from anywhere else. -/
theorem displayLogs_content (evs : List ReadEv) :
    ∀ (lines : List String) (b : String), b ∈ displayLogsBufs lines evs →
      ∃ n, b = String.join (lines ++ (linesOf evs).take n) := by
  induction evs with
  | nil =>
    intro lines b hb
    simp [displayLogsBufs, displayLogsRun] at hb
  | cons e evs ih =>
    intro lines b hb
    cases e with
    | line s0 =>
      have hb2 : b = String.join (lines ++ [s0]) ∨
          b ∈ displayLogsBufs (lines ++ [s0]) evs := by
        have : displayLogsBufs lines (ReadEv.line s0 :: evs) =
            String.join (lines ++ [s0]) :: displayLogsBufs (lines ++ [s0]) evs :=
          rfl
        rw [this] at hb
        simpa using hb
      rcases hb2 with h | h
      · exact ⟨1, by rw [h]; rfl⟩
      · obtain ⟨n, hn⟩ := ih (lines ++ [s0]) b h
        refine ⟨n + 1, ?_⟩
        rw [hn]
        congr 1
        show (lines ++ [s0]) ++ (linesOf evs).take n =
          lines ++ (s0 :: linesOf evs).take (n + 1)
        rw [List.append_assoc]
        rfl
    | noData =>
      have : linesOf (ReadEv.noData :: evs) = linesOf evs := rfl
      rw [this]
      exact ih lines b hb
    | badLine =>
      have : displayLogsBufs lines (ReadEv.badLine :: evs) = [] := rfl
      rw [this] at hb
      cases hb

/-- The first decode failure tears the streamer task down: everything
published comes from the reads before it, and nothing after it is ever
read. -/
theorem displayLogs_crash (pre : List ReadEv) :
    ∀ (lines : List String) (post : List ReadEv), ReadEv.badLine ∉ pre →
      displayLogsRun lines (pre ++ ReadEv.badLine :: post) =
        ((displayLogsRun lines pre).1, true) := by
  induction pre with
  | nil =>
    intro lines post h
    rfl
  | cons e pre ih =>
    intro lines post h
    have hmem : ReadEv.badLine ∉ pre := fun hm => h (List.mem_cons_of_mem _ hm)
    cases e with
    | line s0 =>
      show (let r := displayLogsRun (lines ++ [s0]) (pre ++ ReadEv.badLine :: post);
        (String.join (lines ++ [s0]) :: r.1, r.2)) = _
      rw [ih (lines ++ [s0]) post hmem]
      rfl
    | noData =>
      show displayLogsRun lines (pre ++ ReadEv.badLine :: post) = _
      rw [ih lines post hmem]
      rfl
    | badLine =>
      exact absurd (List.mem_cons_self _ _) h

/-! ### Claim theorems -/

/-- C1: mutual exclusion of supervised processes.  For every sequence of
session stimuli, the emitted event trace is safe: after every event at
most one spawned child is un-terminated, and at the instant of every
`Popen` call no earlier child is running or unreaped and no streamer
future is live — i.e. every `start()` is immediately preceded by a
`stop_previous` that completed fully (previous process terminated and
reaped, log-streamer future cancelled). -/
theorem c1_mutual_exclusion (ok : Bool) (cmds : List Cmd) :
    traceSafe { r := [], u := [], f := [] } (runCmds (initState ok) cmds).2 := by
  have h := runCmds_spec cmds (initState ok) (initState_ok ok)
  have hps : procSets (initState ok) = { r := [], u := [], f := [] } := rfl
  rw [← hps]
  exact h.1

/-- C2 counterexample: the claim says session teardown leaves no spawned
process running, but `on_shutdown` only removes the project folder.  After
one save that starts a service and then a shutdown, the workspace is gone
while child 0 is still in the running cursor of the trace. -/
theorem c2_counterexample :
    (foldSets { r := [], u := [], f := [] }
      (runCmds (initState true) [Cmd.edit appDemoSrc, Cmd.shutdown]).2).r = [0] ∧
    (runCmds (initState true) [Cmd.edit appDemoSrc, Cmd.shutdown]).1.workspace
      = false := by
  exact ⟨by decide, by decide⟩

/-- C2 amended: after any `stop_previous` no spawned child remains running
(every child the session spawned reads as reaped), but session teardown
(`on_shutdown`) only removes the workspace folder — it does not touch the
process world, so a running supervised process survives teardown. -/
theorem c2_no_orphans_amended (ok : Bool) (cmds : List Cmd) :
    (∀ p : Nat, ((stop_previous (runCmds (initState ok) cmds).1).1.world.statusOf
      p).isRunning = false) ∧
    (on_shutdown (runCmds (initState ok) cmds).1).world =
      (runCmds (initState ok) cmds).1.world ∧
    (on_shutdown (runCmds (initState ok) cmds).1).workspace = false := by
  have h := runCmds_spec cmds (initState ok) (initState_ok ok)
  obtain ⟨d1, _⟩ := stop_spec (runCmds (initState ok) cmds).1 h.2.1
  exact ⟨fun p => ProcStatus.isRunning_eq_false (d1 p), rfl, rfl⟩

/-- C3 counterexample: an entry file containing the registration marker
`@app(` from which the registration-call pattern extracts nothing, plus an
indexed-publish subscript `site["/x"]`.  The claim demands Unresolved (no
launch, empty preview) regardless of such content, but `render_code` falls
through to the indexed-publish pattern, launches child 0 and frames the
preview at `/x`. -/
theorem c3_counterexample :
    hasAppMarker siteAfterAppSrc = true ∧
    appSearch siteAfterAppSrc = none ∧
    Ev.spawn 0 ∈ (runCmds (initState true) [Cmd.edit siteAfterAppSrc]).2 ∧
    (runCmds (initState true) [Cmd.edit siteAfterAppSrc]).1.preview =
      PreviewCard.frame "/x" := by
  exact ⟨by decide, by decide, by decide, by decide⟩

/-- C3 amended: when the registration marker is present and the whole
extraction (registration-call pattern, then indexed-publish pattern)
yields the empty path, `render_code` shows the empty-state preview and
returns without launching: handle, world and trace show no process
activity. -/
theorem c3_unresolved_amended (s : IDEState) (code : String)
    (hof : s.openFile = main_app_file) (_hm : hasAppMarker code = true)
    (hp : extractPath code = "") :
    (render_code s (some code)).1.preview = PreviewCard.empty ∧
    (render_code s (some code)).1.waveProcess = s.waveProcess ∧
    (render_code s (some code)).1.world = s.world ∧
    (render_code s (some code)).2.1 = [Ev.showEmpty] := by
  rw [render_early s code hof hp]
  exact ⟨rfl, rfl, rfl, rfl⟩

theorem c3_unresolved_amended_witness :
    hasAppMarker "@app(\n" = true ∧ extractPath "@app(\n" = "" ∧
    ((render_code (initState true) (some "@app(\n")).1.preview =
        PreviewCard.empty ∧
      (render_code (initState true) (some "@app(\n")).1.waveProcess =
        (initState true).waveProcess ∧
      (render_code (initState true) (some "@app(\n")).1.world =
        (initState true).world ∧
      (render_code (initState true) (some "@app(\n")).2.1 = [Ev.showEmpty]) :=
  ⟨by decide, by decide,
    c3_unresolved_amended (initState true) "@app(\n" rfl (by decide) (by decide)⟩

/-- C4 counterexample: an entry file with no registration marker at all
(`print(1)`).  The claim says the process is still launched with an
empty-state preview; the code instead returns early from `render_code`
without ever reaching `start`: no process exists and only the empty-state
event is emitted. -/
theorem c4_counterexample :
    hasAppMarker plainScriptSrc = false ∧
    (runCmds (initState true) [Cmd.edit plainScriptSrc]).2 = [Ev.showEmpty] ∧
    (runCmds (initState true) [Cmd.edit plainScriptSrc]).1.waveProcess = none ∧
    (runCmds (initState true) [Cmd.edit plainScriptSrc]).1.preview =
      PreviewCard.empty := by
  exact ⟨by decide, by decide, by decide, by decide⟩

/-- C4 amended: saving an entry file with no registration marker and no
extractable route records script mode (`is_app = false`), shows the
empty-state preview, and launches nothing — the supervisor is never
reached. -/
theorem c4_script_amended (s : IDEState) (code : String)
    (hof : s.openFile = main_app_file) (hm : hasAppMarker code = false)
    (hp : extractPath code = "") :
    (render_code s (some code)).1.isApp = false ∧
    (render_code s (some code)).1.preview = PreviewCard.empty ∧
    (render_code s (some code)).1.waveProcess = s.waveProcess ∧
    (∀ p, Ev.spawn p ∉ (render_code s (some code)).2.1) := by
  rw [render_early s code hof hp]
  refine ⟨hm, rfl, rfl, ?_⟩
  intro p hmem
  simp at hmem

theorem c4_script_amended_witness :
    hasAppMarker plainScriptSrc = false ∧ extractPath plainScriptSrc = "" ∧
    ((render_code runningState (some plainScriptSrc)).1.isApp = false ∧
      (render_code runningState (some plainScriptSrc)).1.preview =
        PreviewCard.empty ∧
      (render_code runningState (some plainScriptSrc)).1.waveProcess =
        runningState.waveProcess ∧
      (∀ p, Ev.spawn p ∉ (render_code runningState (some plainScriptSrc)).2.1)) :=
  ⟨by decide, by decide,
    c4_script_amended runningState plainScriptSrc (by decide) (by decide)
      (by decide)⟩

/-- C5: log monotonicity.  Within the lifetime of one `display_logs` task,
the successively published log texts form an append chain starting from
the empty buffer (each publication extends the previous one on the right),
and every published text is the concatenation of a prefix of the lines
read from this process's own stream — a fresh task starts from empty
rather than appending to a previous process's content.  (The rendered card
wraps this text in the constant markdown fences of `renderLogsCard`.) -/
theorem c5_log_monotone (evs : List ReadEv) :
    List.Chain' appendExt ("" :: displayLogsBufs [] evs) ∧
    (∀ b, b ∈ displayLogsBufs [] evs →
      ∃ n, b = String.join ((linesOf evs).take n)) := by
  constructor
  · exact displayLogs_chain evs []
  · intro b hb
    obtain ⟨n, hn⟩ := displayLogs_content evs [] b hb
    exact ⟨n, by simpa using hn⟩

theorem c5_log_monotone_witness :
    List.Chain' appendExt
      ("" :: displayLogsBufs [] [ReadEv.line "a", ReadEv.line "b"]) ∧
    (∃ n, "ab" =
      String.join ((linesOf [ReadEv.line "a", ReadEv.line "b"]).take n)) :=
  ⟨(c5_log_monotone [ReadEv.line "a", ReadEv.line "b"]).1,
   (c5_log_monotone [ReadEv.line "a", ReadEv.line "b"]).2 "ab" (by decide)⟩

/-- C6 counterexample: with a service running at `/demo`, saving the
non-entry file `project/util.py` leaves the classification fields alone
but terminates child 0, spawns child 1, and replaces the preview with a
frame at the empty path — the supervisor is restarted and the preview does
not stay in its previous state, contradicting the claim. -/
theorem c6_counterexample :
    (runCmds (initState true) [Cmd.edit appDemoSrc, Cmd.openF "project/util.py",
      Cmd.edit "y = 1\n"]).1.isApp = true ∧
    (runCmds (initState true) [Cmd.edit appDemoSrc, Cmd.openF "project/util.py",
      Cmd.edit "y = 1\n"]).1.activePath = "/demo" ∧
    Ev.term 0 ∈ (runCmds (initState true) [Cmd.edit appDemoSrc,
      Cmd.openF "project/util.py", Cmd.edit "y = 1\n"]).2 ∧
    Ev.spawn 1 ∈ (runCmds (initState true) [Cmd.edit appDemoSrc,
      Cmd.openF "project/util.py", Cmd.edit "y = 1\n"]).2 ∧
    (runCmds (initState true) [Cmd.edit appDemoSrc, Cmd.openF "project/util.py",
      Cmd.edit "y = 1\n"]).1.waveProcess =
      some { pid := 1, returncode := none } ∧
    (runCmds (initState true) [Cmd.edit appDemoSrc, Cmd.openF "project/util.py",
      Cmd.edit "y = 1\n"]).1.preview = PreviewCard.frame "" := by
  exact ⟨by decide, by decide, by decide, by decide, by decide, by decide⟩

/-- C6 amended: a save of a non-entry file leaves the Classification
(`is_app`, `active_path`) untouched, but the supervised process is NOT
left alone: `render_code` falls through to `stop_previous` and `start`
with the empty local path, so (when spawning works) a new child is spawned
and the preview is re-rendered as a frame at the server root. -/
theorem c6_frame_amended (s : IDEState) (text : String)
    (hof : s.openFile ≠ main_app_file) :
    (render_code s (some text)).1.isApp = s.isApp ∧
    (render_code s (some text)).1.activePath = s.activePath ∧
    (s.world.spawnOk = true →
      (render_code s (some text)).1.preview = PreviewCard.frame "" ∧
      ∃ p, Ev.spawn p ∈ (render_code s (some text)).2.1) := by
  unfold render_code
  dsimp only []
  rw [if_neg hof]
  obtain ⟨r1, r2, r3, r4⟩ :=
    renderLaunch_fields { s with files := writeFile s.files s.openFile text } ""
  refine ⟨r1, r2, ?_⟩
  intro hok
  have h3 := r3 hok
  exact ⟨h3.1, h3.2.2.2⟩

theorem c6_frame_amended_witness :
    (render_code nonEntryState (some "y = 1\n")).1.isApp =
      nonEntryState.isApp ∧
    (render_code nonEntryState (some "y = 1\n")).1.activePath =
      nonEntryState.activePath ∧
    ((render_code nonEntryState (some "y = 1\n")).1.preview =
        PreviewCard.frame "" ∧
      ∃ p, Ev.spawn p ∈ (render_code nonEntryState (some "y = 1\n")).2.1) := by
  have h := c6_frame_amended nonEntryState "y = 1\n" (by decide)
  exact ⟨h.1, h.2.1, h.2.2 (by decide)⟩

/-- C7 counterexample: one undecodable chunk on the stream.  The claim
says the streamer never terminates on a decode error and keeps streaming;
in the code `line.decode('utf8')` is unguarded, so the task dies (crash
flag `true`) and the following readable line is never published. -/
theorem c7_counterexample :
    displayLogsRun [] [ReadEv.badLine, ReadEv.line "late"] = ([], true) := by
  decide

/-- C7 amended: the first decode error terminates the log-streamer task:
the run publishes exactly what the reads before the error produced, ends
with the crash flag set, and never processes any later read. -/
theorem c7_streamer_amended (lines : List String) (pre post : List ReadEv)
    (h : ReadEv.badLine ∉ pre) :
    displayLogsRun lines (pre ++ ReadEv.badLine :: post) =
      ((displayLogsRun lines pre).1, true) :=
  displayLogs_crash pre lines post h

theorem c7_streamer_amended_witness :
    ReadEv.badLine ∉ [ReadEv.line "a"] ∧
    displayLogsRun [] ([ReadEv.line "a"] ++ ReadEv.badLine :: [ReadEv.line "b"]) =
      ((displayLogsRun [] [ReadEv.line "a"]).1, true) :=
  ⟨by decide, c7_streamer_amended [] [ReadEv.line "a"] [ReadEv.line "b"]
    (by decide)⟩

/-- C8 counterexample: with a service framed at `/demo` and the launch
environment broken, saving a new entry text routes into `stop_previous`
and a failing `Popen`.  The claim says the failure is surfaced as an
empty-state preview with a diagnostic and no exception escapes; instead
the exception propagates out of `render_code` (flag `true`), nothing is
spawned, and the preview still shows the stale `/demo` frame. -/
theorem c8_counterexample :
    brokenSpawnState.preview = PreviewCard.frame "/demo" ∧
    (render_code brokenSpawnState (some appNewSrc)).2.2 = true ∧
    (render_code brokenSpawnState (some appNewSrc)).1.preview =
      PreviewCard.frame "/demo" ∧
    (render_code brokenSpawnState (some appNewSrc)).2.1 =
      [Ev.term 0, Ev.reap 0, Ev.futCancel 0, Ev.spawnFail] := by
  exact ⟨by decide, by decide, by decide, by decide⟩

/-- C8 amended: when the spawn call fails on an entry-file save with an
extractable path, the previous process is still stopped first, but then
the exception propagates out of `render_code` (third component `true`):
no LaunchFailed state exists, no empty-state or diagnostic preview is
rendered (the preview keeps its previous content), and nothing is
spawned. -/
theorem c8_launch_amended (s : IDEState) (code : String)
    (hok : s.world.spawnOk = false) (hof : s.openFile = main_app_file)
    (hp : extractPath code ≠ "") :
    (render_code s (some code)).2.2 = true ∧
    (render_code s (some code)).1.preview = s.preview ∧
    (∀ p, Ev.spawn p ∉ (render_code s (some code)).2.1) := by
  unfold render_code
  dsimp only []
  rw [if_pos hof, if_neg hp]
  obtain ⟨r1, r2, r3, r4⟩ :=
    renderLaunch_fields { s with files := writeFile s.files s.openFile code,
                                 isApp := hasAppMarker code,
                                 activePath := extractPath code }
      (extractPath code)
  have hb := r4 hok
  exact ⟨hb.2.1, hb.1, hb.2.2⟩

theorem c8_launch_amended_witness :
    brokenSpawnState.world.spawnOk = false ∧ extractPath appNewSrc ≠ "" ∧
    ((render_code brokenSpawnState (some appNewSrc)).2.2 = true ∧
      (render_code brokenSpawnState (some appNewSrc)).1.preview =
        brokenSpawnState.preview ∧
      (∀ p, Ev.spawn p ∉ (render_code brokenSpawnState (some appNewSrc)).2.1)) :=
  ⟨by decide, by decide,
    c8_launch_amended brokenSpawnState appNewSrc (by decide) (by decide)
      (by decide)⟩

/-- C9: `stop_previous` is idempotent — running it twice with no
intervening `start` leaves exactly the state one run produces — and on a
session where nothing was ever started (no handle, no streamer future, no
active path) it is a complete no-op, returning the state unchanged with no
events. -/
theorem c9_stop_idempotent (s : IDEState) :
    (stop_previous (stop_previous s).1).1 = (stop_previous s).1 ∧
    (s.waveProcess = none → s.displayLogsFut = none → s.activePath = "" →
      stop_previous s = (s, [])) := by
  constructor
  · exact stop_of_stopped (stop_previous s).1 (stopped_after_stop s)
  · intro h1 h2 h3
    have hcond : ¬(s.isApp = false ∧ s.activePath ≠ "") := by
      rw [h3]
      simp
    have ha : dropPage s = (s, []) := by
      unfold dropPage
      rw [if_neg hcond]
    have hb : stopProc s = (s, []) := by
      unfold stopProc
      rw [h1]
    have hc : cancelStreamer s = (s, []) := by
      unfold cancelStreamer
      rw [h2]
    show ((cancelStreamer (stopProc (dropPage s).1).1).1,
      (dropPage s).2 ++ (stopProc (dropPage s).1).2 ++
        (cancelStreamer (stopProc (dropPage s).1).1).2) = (s, [])
    rw [ha]
    dsimp only []
    rw [hb]
    dsimp only []
    rw [hc]
    rfl

theorem c9_stop_idempotent_witness :
    (stop_previous (stop_previous (initState true)).1).1 =
      (stop_previous (initState true)).1 ∧
    stop_previous (initState true) = (initState true, []) :=
  ⟨(c9_stop_idempotent (initState true)).1,
   (c9_stop_idempotent (initState true)).2 rfl rfl rfl⟩

/-- C10: when a save of the entry file yields no extractable route path,
`render_code` swaps in the empty-state preview and returns before
`stop_previous` or `start` is reached: the process handle, the streamer
future, the whole process world (so the old child keeps its status, e.g.
running), the log card, the active path and the published pages are all
untouched; only the file contents, `is_app` and the preview cards change,
and the sole emitted event is the empty-state render. -/
theorem c10_no_path_frame (s : IDEState) (code : String)
    (hof : s.openFile = main_app_file) (hp : extractPath code = "") :
    (render_code s (some code)).1.waveProcess = s.waveProcess ∧
    (render_code s (some code)).1.displayLogsFut = s.displayLogsFut ∧
    (render_code s (some code)).1.world = s.world ∧
    (render_code s (some code)).1.logsContent = s.logsContent ∧
    (render_code s (some code)).1.activePath = s.activePath ∧
    (render_code s (some code)).1.pages = s.pages ∧
    (render_code s (some code)).1.isApp = hasAppMarker code ∧
    (render_code s (some code)).1.preview = PreviewCard.empty ∧
    (render_code s (some code)).1.previewDisabled = true ∧
    (render_code s (some code)).2.1 = [Ev.showEmpty] ∧
    (render_code s (some code)).2.2 = false := by
  rw [render_early s code hof hp]
  exact ⟨rfl, rfl, rfl, rfl, rfl, rfl, rfl, rfl, rfl, rfl, rfl⟩

theorem c10_no_path_frame_witness :
    (runningState.world.statusOf 0).isRunning = true ∧
    ((render_code runningState (some "pass\n")).1.waveProcess =
        runningState.waveProcess ∧
      (render_code runningState (some "pass\n")).1.displayLogsFut =
        runningState.displayLogsFut ∧
      (render_code runningState (some "pass\n")).1.world =
        runningState.world ∧
      (render_code runningState (some "pass\n")).1.logsContent =
        runningState.logsContent ∧
      (render_code runningState (some "pass\n")).1.activePath =
        runningState.activePath ∧
      (render_code runningState (some "pass\n")).1.pages =
        runningState.pages ∧
      (render_code runningState (some "pass\n")).1.isApp =
        hasAppMarker "pass\n" ∧
      (render_code runningState (some "pass\n")).1.preview =
        PreviewCard.empty ∧
      (render_code runningState (some "pass\n")).1.previewDisabled = true ∧
      (render_code runningState (some "pass\n")).2.1 = [Ev.showEmpty] ∧
      (render_code runningState (some "pass\n")).2.2 = false) :=
  ⟨by decide,
   c10_no_path_frame runningState "pass\n" (by decide) (by decide)⟩
